import Mathlib

/-!
Verification development for the aiohttp-graphql HTTP-to-GraphQL request
adapter.  The adapter code (`aiohttp_graphql/__init__.py`, `tools.py`) is
shallowly embedded below: the view's request handler becomes a pure function
from a configuration, an engine oracle (the external GraphQL library), a JSON
decoder oracle (Python's `json.loads`) and a request, to either an uncaught
Python exception or a response together with ghost instrumentation recording
which exit produced the response and what was passed to the engine's
`execute`.
-/

/-! ## JSON values (the image of Python's json module, integers only) -/

mutual

/-- A JSON value as produced by `json.loads`.  Numbers are modelled as
integers (no claim involves fractional numerals).  Objects keep their
key/value pairs in insertion order, like Python dicts.  Array elements and
object members use the dedicated list types `JsonL` and `JsonM` so that all
recursion over values is plainly structural. -/
inductive Json where
  | null : Json
  | bool : Bool → Json
  | num : Int → Json
  | str : String → Json
  | arr : JsonL → Json
  | obj : JsonM → Json

/-- A list of JSON values (the elements of an array). -/
inductive JsonL where
  | nil : JsonL
  | cons : Json → JsonL → JsonL

/-- An ordered association list of JSON values (the members of an object). -/
inductive JsonM where
  | nil : JsonM
  | cons : String → Json → JsonM → JsonM

end

/-- Build array elements from an ordinary list. -/
def JsonL.ofList : List Json → JsonL
  | [] => .nil
  | x :: xs => .cons x (JsonL.ofList xs)

/-- Array elements as an ordinary list. -/
def JsonL.toList : JsonL → List Json
  | .nil => []
  | .cons x xs => x :: JsonL.toList xs

/-- Build object members from an ordinary association list. -/
def JsonM.ofList : List (String × Json) → JsonM
  | [] => .nil
  | (k, v) :: kvs => .cons k v (JsonM.ofList kvs)

/-- Object members as an ordinary association list. -/
def JsonM.toList : JsonM → List (String × Json)
  | .nil => []
  | .cons k v kvs => (k, v) :: JsonM.toList kvs

/-- A JSON array from a list of elements. -/
def jArr (xs : List Json) : Json := .arr (JsonL.ofList xs)

/-- A JSON object from an association list of members. -/
def jObj (kvs : List (String × Json)) : Json := .obj (JsonM.ofList kvs)

/-- Python truthiness of a JSON value (used for `or` defaults and
`if not data.get("query")`). -/
def jsonFalsy : Json → Bool
  | .null => true
  | .bool b => !b
  | .num n => n == 0
  | .str s => s == ""
  | .arr .nil => true
  | .arr (.cons _ _) => false
  | .obj .nil => true
  | .obj (.cons _ _ _) => false

/-- Python dict lookup, as in Python's `d.get(k)`: the value stored under `k`, if any.
Association lists built from `json.loads` have unique keys, so taking the
first match is the dict semantics. -/
def dictGet (d : List (String × Json)) (k : String) : Option Json :=
  (d.find? (fun p => p.1 == k)).map (fun p => p.2)

/-- Python dict update, as in Python's `a.update(b)`: values of `b` override those of `a`;
keys of `a` keep their position, new keys of `b` are appended in order. -/
def dictUpdate (a b : List (String × Json)) : List (String × Json) :=
  a.map (fun p => match dictGet b p.1 with
    | some v => (p.1, v)
    | none => p) ++
  b.filter (fun p => (dictGet a p.1).isNone)

mutual

/-- Size measure of a JSON value, used as serializer fuel. -/
def Json.size : Json → Nat
  | .null => 1
  | .bool _ => 1
  | .num _ => 1
  | .str _ => 1
  | .arr xs => 1 + JsonL.size xs
  | .obj kvs => 1 + JsonM.size kvs

/-- Size measure of array elements. -/
def JsonL.size : JsonL → Nat
  | .nil => 1
  | .cons x xs => 1 + Json.size x + JsonL.size xs

/-- Size measure of object members. -/
def JsonM.size : JsonM → Nat
  | .nil => 1
  | .cons _ v kvs => 1 + Json.size v + JsonM.size kvs

end

/-! ## Serialization: Python `json.dumps` -/

/-- Hex digit for string escapes. -/
def hexDigit (n : Nat) : Char :=
  if n < 10 then Char.ofNat (48 + n) else Char.ofNat (87 + (n % 16))

/-- Escape one character the way `json.dumps` (with `ensure_ascii`) does. -/
def escChar (c : Char) : String :=
  if c = '"' then "\\\""
  else if c = '\\' then "\\\\"
  else if c = '\n' then "\\n"
  else if c = '\t' then "\\t"
  else if c = '\r' then "\\r"
  else if c.toNat < 32 ∨ c.toNat > 126 then
    let n := c.toNat
    String.mk ['\\', 'u', hexDigit (n / 4096 % 16), hexDigit (n / 256 % 16),
               hexDigit (n / 16 % 16), hexDigit (n % 16)]
  else String.singleton c

/-- A JSON string literal as `json.dumps` writes it. -/
def escapeStr (s : String) : String :=
  "\"" ++ String.join (s.toList.map escChar) ++ "\""

mutual

/-- Serialization as `json.dumps` with item separator `isep` and key separator `ksep`.
Python's defaults are `", "` and `": "`; `separators=(",", ":")` gives the
compact form. -/
def dumpsSep (isep ksep : String) : Json → String
  | .null => "null"
  | .bool true => "true"
  | .bool false => "false"
  | .num n => toString n
  | .str s => escapeStr s
  | .arr xs => "[" ++ dumpsSepL isep ksep xs ++ "]"
  | .obj kvs => "\x7b" ++ dumpsSepM isep ksep kvs ++ "\x7d"

/-- Array items joined by the item separator. -/
def dumpsSepL (isep ksep : String) : JsonL → String
  | .nil => ""
  | .cons x .nil => dumpsSep isep ksep x
  | .cons x (.cons y xs) =>
      dumpsSep isep ksep x ++ isep ++ dumpsSepL isep ksep (.cons y xs)

/-- Object members joined by the item separator. -/
def dumpsSepM (isep ksep : String) : JsonM → String
  | .nil => ""
  | .cons k v .nil => escapeStr k ++ ksep ++ dumpsSep isep ksep v
  | .cons k v (.cons k2 v2 kvs) =>
      escapeStr k ++ ksep ++ dumpsSep isep ksep v ++ isep ++
        dumpsSepM isep ksep (.cons k2 v2 kvs)

end

/-- Serialization as `json.dumps(x)` with Python's default separators: a space after each
comma and colon. -/
def pyDumpsDefault (v : Json) : String := dumpsSep ", " ": " v

/-- Serialization as `json.dumps(x)` with compact separators. -/
def pyDumpsCompact (v : Json) : String := dumpsSep "," ":" v

/-- Indentation of `n` two-space units. -/
def indentSp (n : Nat) : String := String.join (List.replicate n "  ")

mutual

/-- Serialization as `json.dumps(x, indent=2)` at nesting level `lvl`. -/
def dumpsPretty (lvl : Nat) : Json → String
  | .null => "null"
  | .bool true => "true"
  | .bool false => "false"
  | .num n => toString n
  | .str s => escapeStr s
  | .arr .nil => "[]"
  | .arr (.cons x xs) =>
      "[\n" ++ dumpsPrettyL lvl (.cons x xs) ++ "\n" ++ indentSp lvl ++ "]"
  | .obj .nil => "\x7b\x7d"
  | .obj (.cons k v kvs) =>
      "\x7b\n" ++ dumpsPrettyM lvl (.cons k v kvs) ++ "\n" ++ indentSp lvl ++ "\x7d"

/-- Indented array items, joined by a comma and newline. -/
def dumpsPrettyL (lvl : Nat) : JsonL → String
  | .nil => ""
  | .cons x .nil => indentSp (lvl + 1) ++ dumpsPretty (lvl + 1) x
  | .cons x (.cons y xs) =>
      indentSp (lvl + 1) ++ dumpsPretty (lvl + 1) x ++ ",\n" ++
        dumpsPrettyL lvl (.cons y xs)

/-- Indented object members, joined by a comma and newline. -/
def dumpsPrettyM (lvl : Nat) : JsonM → String
  | .nil => ""
  | .cons k v .nil =>
      indentSp (lvl + 1) ++ escapeStr k ++ ": " ++ dumpsPretty (lvl + 1) v
  | .cons k v (.cons k2 v2 kvs) =>
      indentSp (lvl + 1) ++ escapeStr k ++ ": " ++ dumpsPretty (lvl + 1) v ++
        ",\n" ++ dumpsPrettyM lvl (.cons k2 v2 kvs)

end

/-! ## A concrete JSON decoder

Universal theorems below are stated for an arbitrary decoder oracle standing
for Python's `json.loads`; this executable recursive-descent decoder is used
to instantiate concrete counterexamples and witnesses.  It covers the JSON
fragment those concrete inputs use (integer numerals, basic escapes). -/

/-- Drop leading JSON whitespace. -/
def dropWs : List Char → List Char
  | c :: cs => if c = ' ' ∨ c = '\n' ∨ c = '\t' ∨ c = '\r' then dropWs cs else c :: cs
  | [] => []

/-- Decode one backslash escape. -/
def escDecode : Char → Option String
  | '"' => some "\""
  | '\\' => some "\\"
  | '/' => some "/"
  | 'n' => some "\n"
  | 't' => some "\t"
  | 'r' => some "\r"
  | _ => none

/-- Lex a string literal body (after the opening quote). -/
def lexStr : List Char → Option (String × List Char)
  | [] => none
  | '"' :: cs => some ("", cs)
  | '\\' :: e :: cs =>
      match escDecode e with
      | some pre => (lexStr cs).map fun r => (pre ++ r.1, r.2)
      | none => none
  | c :: cs => (lexStr cs).map fun r => (String.singleton c ++ r.1, r.2)

/-- Lex the digits of an integer numeral, returning its value and the rest. -/
def lexNat : List Char → Option (Nat × List Char)
  | c :: cs =>
      if c.isDigit then
        let rec go : List Char → Nat → Nat × List Char
          | d :: ds, acc => if d.isDigit then go ds (acc * 10 + (d.toNat - 48))
                            else (acc, d :: ds)
          | [], acc => (acc, [])
        some (go (c :: cs) 0)
      else none
  | [] => none

/-- Work item for the decoder: a value, the remaining items of a non-empty
array, or the remaining members of a non-empty object. -/
inductive PJob where
  | val (cs : List Char)
  | items (cs : List Char)
  | members (cs : List Char)

/-- Recursive-descent JSON decoding as a single fuel-indexed structural
recursion (so concrete runs reduce).  Array items accumulate into
`Json.arr`, object members into `Json.obj`. -/
def parseF : Nat → PJob → Option (Json × List Char)
  | 0, _ => none
  | Nat.succ f, .val cs0 =>
    match dropWs cs0 with
    | 'n' :: 'u' :: 'l' :: 'l' :: cs => some (.null, cs)
    | 't' :: 'r' :: 'u' :: 'e' :: cs => some (.bool true, cs)
    | 'f' :: 'a' :: 'l' :: 's' :: 'e' :: cs => some (.bool false, cs)
    | '"' :: cs => (lexStr cs).map fun r => (.str r.1, r.2)
    | '[' :: cs =>
        (match dropWs cs with
         | ']' :: cs2 => some (.arr .nil, cs2)
         | _ => parseF f (.items cs))
    | '\x7b' :: cs =>
        (match dropWs cs with
         | '\x7d' :: cs2 => some (.obj .nil, cs2)
         | _ => parseF f (.members cs))
    | '-' :: cs => (lexNat cs).map fun r => (.num (-(r.1 : Int)), r.2)
    | cs => (lexNat cs).map fun r => (.num (r.1 : Int), r.2)
  | Nat.succ f, .items cs0 =>
    match parseF f (.val cs0) with
    | some (v, r) =>
      (match dropWs r with
       | ',' :: cs =>
         (match parseF f (.items cs) with
          | some (.arr t, r2) => some (.arr (.cons v t), r2)
          | _ => none)
       | ']' :: cs => some (.arr (.cons v .nil), cs)
       | _ => none)
    | none => none
  | Nat.succ f, .members cs0 =>
    match dropWs cs0 with
    | '"' :: cs =>
      (match lexStr cs with
       | some k =>
         (match dropWs k.2 with
          | ':' :: cs2 =>
            (match parseF f (.val cs2) with
             | some (v, r) =>
               (match dropWs r with
                | ',' :: cs3 =>
                  (match parseF f (.members cs3) with
                   | some (.obj t, r2) => some (.obj (.cons k.1 v t), r2)
                   | _ => none)
                | '\x7d' :: cs3 => some (.obj (.cons k.1 v .nil), cs3)
                | _ => none)
             | none => none)
          | _ => none)
       | none => none)
    | _ => none

/-- The model of Python's `json.loads`: parse the full text; failure is a
`json.decoder.JSONDecodeError`. -/
def jsonParse (s : String) : Except Unit Json :=
  match parseF (2 * s.length + 2) (.val s.toList) with
  | some (v, rest) => if dropWs rest = [] then .ok v else .error ()
  | none => .error ()

example : jsonParse "\x7b\x7d" = .ok (jObj []) := rfl
example : jsonParse "\x7b\"a\":1\x7d" = .ok (jObj [("a", .num 1)]) := rfl
example : jsonParse "\x7b" = .error () := rfl
example : jsonParse "\x7b\"query\":\"q\",\"variables\":\x7b\"b\":2\x7d\x7d" =
    .ok (jObj [("query", .str "q"), ("variables", jObj [("b", .num 2)])]) := rfl
example : pyDumpsCompact (jObj [("errors", jArr [jObj [("message", .str "x")]])]) =
    "\x7b\"errors\":[\x7b\"message\":\"x\"\x7d]\x7d" := rfl
example : pyDumpsDefault (jObj [("errors", jArr [jObj [("message", .str "x")]])]) =
    "\x7b\"errors\": [\x7b\"message\": \"x\"\x7d]\x7d" := rfl

/-- Lower-casing as Python's `str.lower` (ASCII, which is all the adapter
compares); defined over the character list so concrete runs reduce. -/
def pyLower (s : String) : String := String.mk (s.toList.map Char.toLower)

/-- Upper-casing as Python's `str.upper` (ASCII). -/
def pyUpper (s : String) : String := String.mk (s.toList.map Char.toUpper)

/-! ## HTTP requests and responses (the aiohttp primitives the adapter uses) -/

/-- The parts of an `aiohttp.web.Request` the adapter reads.  `queryParams`
models the query-string `MultiDict` (`get` returns the first value),
`headers` the case-insensitive `CIMultiDict`.  `formData` is the result of
`dict(await request.post())` for form-encoded bodies, with duplicate keys
already collapsed. -/
structure Request where
  method : String
  queryParams : List (String × String)
  headers : List (String × String)
  content_type : String
  bodyText : String
  formData : List (String × Json)

/-- Query-string lookup, as `request.query.get(name)`: the first value. -/
def queryGet (req : Request) (name : String) : Option String :=
  (req.queryParams.find? (fun p => p.1 == name)).map (fun p => p.2)

/-- Header lookup, as `request.headers.get(name)`: case-insensitive. -/
def headerGet (req : Request) (name : String) : Option String :=
  (req.headers.find? (fun p => pyLower p.1 == pyLower name)).map (fun p => p.2)

/-- An `aiohttp.web.Response` as the adapter constructs it.  `contentType`
is `none` when the constructor was called without a `content_type` argument,
`text = none` models a bodyless response. -/
structure Response where
  status : Nat
  headers : List (String × String)
  contentType : Option String
  text : Option String

/-- Is the buffer `needle` a prefix of `hay`? -/
def isSubAt : List Char → List Char → Bool
  | [], _ => true
  | _ :: _, [] => false
  | a :: as, b :: bs => a == b && isSubAt as bs

/-- Python's `needle in hay` on strings: substring containment. -/
def hasSub (needle hay : List Char) : Bool :=
  match hay with
  | [] => needle.isEmpty
  | _ :: hs => isSubAt needle hay || hasSub needle hs

/-! ## The external GraphQL engine (collaborator interface) -/

/-- Modelled from the spec: the parsed abstract syntax tree of a query text
(`parse(text) -> document`).  The adapter treats documents opaquely, so a
bare identifier suffices. -/
structure Document where
  id : Nat

/-- Modelled from the spec: the operation node `get_operation_ast` returns;
the adapter only reads its operation type (the `OperationType` value string,
such as "query" or "mutation"). -/
structure Operation where
  operation : String

/-- Modelled from the spec: a GraphQL-shaped error as the engine produces
it; `locations` and `path` are optional, a location is a line/column pair. -/
structure GraphQLError where
  message : String
  locations : Option (List (Nat × Nat))
  path : Option (List Json)

/-- Modelled from the spec: `GraphQLError.formatted` — the library's
specification-format mapping with keys `message`, `locations` and `path`,
the latter two present with a null value when unset (the adapter deletes
those null entries itself in `encode_response`). -/
def GraphQLError.formatted (e : GraphQLError) : List (String × Json) :=
  [("message", .str e.message),
   ("locations", match e.locations with
     | some ls => jArr (ls.map (fun lc =>
         jObj [("line", .num lc.1), ("column", .num lc.2)]))
     | none => Json.null),
   ("path", match e.path with
     | some p => jArr p
     | none => Json.null)]

/-- A `GraphQLError` with only a message, as built by
`GraphQLError(message=...)` in the adapter. -/
def mkErr (msg : String) : GraphQLError := ⟨msg, none, none⟩

/-- Modelled from the spec: the engine's `ExecutionResult` — `data` (null
when `none`) plus an error list (`[]` standing for Python `None`/empty,
both falsy). -/
structure ExecutionResult where
  data : Option Json
  errors : List GraphQLError

/-- A value stored in a per-request context mapping: either the injected
HTTP request object or any other (opaque) value. -/
inductive CtxVal where
  | req (r : Request)
  | atom (n : Nat)

/-- The `context` constructor argument of the view: Python `None`, a
mapping, or a non-mapping value with the given truthiness. -/
inductive ConfiguredContext where
  | pyNone
  | mapping (kvs : List (String × CtxVal))
  | other (truthy : Bool)

/-- Modelled from the spec: the engine collaborator, closed over the
configured schema and root value (`parse`, `validate_schema`,
`get_operation_ast`, `validate`, `execute`).  `parse` covers both `except`
clauses of the adapter: any exception it raises reaches the adapter as one
GraphQL-shaped error.  `execute` receives the document, merged variables,
operation name and built context. -/
structure Engine where
  validate_schema : List GraphQLError
  parse : Json → Except GraphQLError Document
  get_operation_ast : Document → Option Json → Option Operation
  validate : Document → List GraphQLError
  execute : Document → List (String × Json) → Option Json →
      List (String × CtxVal) → ExecutionResult

/-! ## Adapter configuration and instrumentation -/

/-- The GraphiQL/Playground/Voyager tool attached to the view
(`tools.py`).  Template rendering is external (jinja2), so the tool carries
its rendered page text; `render` returns it as a 200 `text/html` response. -/
structure GraphQLTool where
  url : String
  endpoint : String
  renderText : String

/-- The configuration state of a `GraphQLView` instance (the fields of
`__init__` the handler reads; `schema` and `root_value` live inside the
engine oracle, `middleware` and `subscriptions` are forwarded or unused). -/
structure GraphQLView where
  asynchronous : Bool := true
  context : ConfiguredContext := .pyNone
  max_age : Nat := 86400
  pretty : Bool := false
  tool : Option GraphQLTool := none

/-- An uncaught Python exception escaping the handler. -/
inductive PyExn where
  | jsonDecodeError
  | typeError
  | attributeError
  deriving DecidableEq

/-- Ghost record of one `execute` invocation: the arguments the adapter
passed to the engine. -/
structure ExecCall where
  document : Document
  variable_values : List (String × Json)
  operationName : Option Json
  context : List (String × CtxVal)

/-- Ghost tag naming the return site of `GraphQLView.__call__` that produced
the response. -/
inductive ExitKind where
  | varsBad
  | preflightOk
  | preflightBad
  | postBadJson
  | methodNA
  | toolPage
  | queryMissing
  | schemaInvalid
  | parseFailed
  | opTypeMismatch
  | validationFailed
  | executed (invalid : Bool)
  deriving DecidableEq

/-- The handler's outcome: the HTTP response plus ghost instrumentation
(the structured JSON body when one was serialized, the arguments of the
`execute` call when the engine was invoked, and the exit site). -/
structure HandleResult where
  response : Response
  bodyJson : Option Json
  execCall : Option ExecCall
  exit : ExitKind

/-! ## The adapter: `GraphQLView` methods -/

/-- The raw query-string variables text: `request.query.get` of the
`variables` parameter, defaulting to the empty-object text. -/
def varParam (req : Request) : String := (queryGet req "variables").getD "\x7b\x7d"

/-- Substring test of `needle` against the Accept header; with the
empty-dict default of the source an absent header never matches. -/
def acceptHas (req : Request) (needle : String) : Bool :=
  match headerGet req "accept" with
  | some s => hasSub needle.toList s.toList
  | none => false

/-- The method `GraphQLView.is_tool`: serve the UI tool iff one is configured, the
method is GET, no `raw` query parameter is present, and the Accept header
contains `text/html` or `*/*`. -/
def is_tool (cfg : GraphQLView) (req : Request) : Bool :=
  cfg.tool.isSome && pyLower req.method == "get" &&
  !(req.queryParams.any (fun p => p.1 == "raw")) &&
  (acceptHas req "text/html" || acceptHas req "*/*")

/-- The method `GraphQLView.is_pretty`: the configured flag, a tool request, or a
truthy (non-empty) `pretty` query parameter. -/
def is_pretty (cfg : GraphQLView) (req : Request) : Bool :=
  cfg.pretty || is_tool cfg req ||
  (match queryGet req "pretty" with
   | some s => s != ""
   | none => false)

/-- The method `GraphQLView.get_context`: copy a truthy configured mapping (anything
else gives an empty dict), then inject the request under "request" unless
that key is already present. -/
def get_context (cfg : GraphQLView) (req : Request) : List (String × CtxVal) :=
  let context : List (String × CtxVal) :=
    match cfg.context with
    | .mapping kvs => if kvs.isEmpty then [] else kvs
    | _ => []
  if context.any (fun p => p.1 == "request") then context
  else context ++ [("request", CtxVal.req req)]

/-- The method `GraphQLView.parse_body`: dispatch on the content type; only
`application/json` can fail (a `JSONDecodeError` from `loads`). -/
def parse_body (loads : String → Except Unit Json) (req : Request) : Except Unit Json :=
  if req.content_type = "application/graphql" then
    .ok (jObj [("query", .str req.bodyText)])
  else if req.content_type = "application/json" then
    loads req.bodyText
  else if req.content_type = "application/x-www-form-urlencoded" ∨
          req.content_type = "multipart/form-data" then
    .ok (jObj req.formData)
  else
    .ok (jObj [])

/-- The method `GraphQLView.json_encode`: 2-space-indented when pretty, else compact
separators. -/
def json_encode (pretty : Bool) (v : Json) : String :=
  if pretty then dumpsPretty 0 v else pyDumpsCompact v

/-- The body object `error_response` serializes:
one error carrying only a message. -/
def error_body (msg : String) : Json :=
  jObj [("errors", jArr [jObj [("message", .str msg)]])]

/-- The method `GraphQLView.error_response`: note the body goes through `json.dumps`
with Python's default separators, not the compact ones `json_encode` uses. -/
def error_response (msg : String) (status : Nat) (headers : List (String × String)) : Response :=
  ⟨status, headers, some "application/json", some (pyDumpsDefault (error_body msg))⟩

/-- Is this JSON value null? -/
def isNullJ : Json → Bool
  | .null => true
  | _ => false

/-- The in-place deletions of `encode_response`: drop `locations` and
`path` entries whose value is null. -/
def prune_error (kvs : List (String × Json)) : List (String × Json) :=
  kvs.filter (fun p =>
    !(p.1 == "locations" && isNullJ p.2) && !(p.1 == "path" && isNullJ p.2))

/-- Python `None`-to-JSON-null for the `data` field. -/
def optJson : Option Json → Json
  | none => .null
  | some j => j

/-- The response dict `encode_response` builds: `data` plus formatted,
pruned errors when errors are present (the `data` key is deleted when null
and the request was invalid), else just `data`. -/
def response_body (result : ExecutionResult) (invalid : Bool) : List (String × Json) :=
  match result.errors with
  | [] => [("data", optJson result.data)]
  | errs =>
    let errsJ := errs.map (fun e => jObj (prune_error e.formatted))
    if result.data.isNone && invalid then [("errors", jArr errsJ)]
    else [("data", optJson result.data), ("errors", jArr errsJ)]

/-- The method `GraphQLView.encode_response`: 200 unless invalid (then 400), JSON
content type, body serialized by `json_encode`. -/
def encode_response (cfg : GraphQLView) (req : Request) (result : ExecutionResult)
    (invalid : Bool) : Response :=
  ⟨if invalid then 400 else 200, [], some "application/json",
   some (json_encode (is_pretty cfg req) (jObj (response_body result invalid)))⟩

/-- The method `GraphQLView.process_preflight`: 200 with CORS headers when the
requested method (upper-cased) is an accepted one, else a bare 400. -/
def process_preflight (cfg : GraphQLView) (req : Request) : Response :=
  if pyUpper ((headerGet req "Access-Control-Request-Method").getD "") ≠ "" ∧
      pyUpper ((headerGet req "Access-Control-Request-Method").getD "") ∈
        ["GET", "POST", "PUT", "DELETE"] then
    ⟨200, [("Access-Control-Allow-Origin", (headerGet req "Origin").getD ""),
           ("Access-Control-Allow-Methods", "GET, POST, PUT, DELETE"),
           ("Access-Control-Max-Age", toString cfg.max_age)], none, none⟩
  else ⟨400, [], none, none⟩

/-- Lines 144-147 of `__call__`: `variables.update(vars_dyn if
isinstance(vars_dyn, dict) else json.loads(vars_dyn))` with the falsy
default.  A non-dict pre-parsed `variables` raises `AttributeError` (the
`update` attribute lookup precedes the argument), a string body value is
decoded a second time and can raise an uncaught `JSONDecodeError`, and any
other truthy non-dict value raises a `TypeError` (non-mapping `update`
arguments; iterables of pairs are outside the modelled fragment). -/
def merge_variables (loads : String → Except Unit Json) (variables0 : Json)
    (data : List (String × Json)) : Except PyExn (List (String × Json)) :=
  let varsDyn0 := (dictGet data "variables").getD (jObj [])
  let varsDyn := if jsonFalsy varsDyn0 then jObj [] else varsDyn0
  match variables0 with
  | .obj varsQ =>
    match varsDyn with
    | .obj kvs => .ok (dictUpdate varsQ.toList kvs.toList)
    | .str s =>
      match loads s with
      | .ok (.obj kvs) => .ok (dictUpdate varsQ.toList kvs.toList)
      | .ok _ => .error .typeError
      | .error _ => .error .jsonDecodeError
    | _ => .error .typeError
  | _ => .error .attributeError

/-- Operation-name resolution, as `data.get` with the query-string default: a body-provided operation
name (possibly JSON null, which is Python `None`) overrides the
query-string one. -/
def post_op_name (data : List (String × Json)) (qOp : Option String) : Option Json :=
  match dictGet data "operationName" with
  | some j =>
    match j with
    | .null => none
    | _ => some j
  | none => qOp.map Json.str

/-- The GET operation dict value: `request.query.get("query")`
(Python `None` when absent). -/
def get_query_json (req : Request) : Json :=
  match queryGet req "query" with
  | some s => .str s
  | none => .null

/-- The value of `data.get` at key query, handed to `parse`. -/
def query_json (data : List (String × Json)) : Json :=
  (dictGet data "query").getD .null

/-- Falsity of the extracted query: absent, null or empty query text. -/
def query_falsy (data : List (String × Json)) : Bool :=
  match dictGet data "query" with
  | none => true
  | some j => jsonFalsy j

/-- The tail of `__call__` after document validation: run `execute` (the
asynchronous flag only decides whether the result is awaited) and encode its
result with the carried invalid flag. -/
def run_execute (cfg : GraphQLView) (eng : Engine) (req : Request) (doc : Document)
    (vars : List (String × Json)) (opName : Option Json)
    (context : List (String × CtxVal)) (invalid : Bool) : HandleResult :=
  let result := if cfg.asynchronous then eng.execute doc vars opName context
                else eng.execute doc vars opName context
  ⟨encode_response cfg req result invalid, some (jObj (response_body result invalid)),
   some ⟨doc, vars, opName, context⟩, .executed invalid⟩

/-- Lines 199-233 of `__call__`: document validation, then execution. -/
def validate_and_execute (cfg : GraphQLView) (eng : Engine) (req : Request)
    (doc : Document) (vars : List (String × Json)) (opName : Option Json)
    (context : List (String × CtxVal)) (invalid : Bool) : Except PyExn HandleResult :=
  match eng.validate doc with
  | [] => .ok (run_execute cfg eng req doc vars opName context invalid)
  | verrs =>
    let result : ExecutionResult := ⟨none, verrs⟩
    .ok ⟨encode_response cfg req result true, some (jObj (response_body result true)),
         none, .validationFailed⟩

/-- Lines 142-233 of `__call__`: the part shared by GET and POST after the
operation data has been extracted — variable merging, the tool page, the
missing-query rejection, schema validation, parsing, operation resolution
(marking invalid without short-circuiting when none is found, rejecting
non-query operations over GET), document validation and execution. -/
def processQuery (cfg : GraphQLView) (eng : Engine) (loads : String → Except Unit Json)
    (req : Request) (m : String) (variables0 : Json) (data : List (String × Json))
    (opName : Option Json) : Except PyExn HandleResult :=
  match merge_variables loads variables0 data with
  | .error e => .error e
  | .ok vars =>
    let context := get_context cfg req
    if is_tool cfg req then
      match cfg.tool with
      | some t => .ok ⟨⟨200, [], some "text/html", some t.renderText⟩, none, none, .toolPage⟩
      | none => .error .attributeError
    else if query_falsy data then
      let result : ExecutionResult := ⟨none, [mkErr "Must provide query string."]⟩
      .ok ⟨encode_response cfg req result true, some (jObj (response_body result true)),
           none, .queryMissing⟩
    else
      match eng.validate_schema with
      | [] =>
        match eng.parse (query_json data) with
        | .error err =>
          let result : ExecutionResult := ⟨none, [err]⟩
          .ok ⟨encode_response cfg req result true, some (jObj (response_body result true)),
               none, .parseFailed⟩
        | .ok doc =>
          match eng.get_operation_ast doc opName with
          | none => validate_and_execute cfg eng req doc vars opName context true
          | some op =>
            if m = "get" ∧ op.operation ≠ "query" then
              .ok ⟨error_response
                     ("Can only perform a " ++ op.operation ++
                      " operation from a POST request.") 405 [("Allow", "POST")],
                   some (error_body
                     ("Can only perform a " ++ op.operation ++
                      " operation from a POST request.")),
                   none, .opTypeMismatch⟩
            else validate_and_execute cfg eng req doc vars opName context false
      | serrs =>
        let result : ExecutionResult := ⟨none, serrs⟩
        .ok ⟨encode_response cfg req result true, some (jObj (response_body result true)),
             none, .schemaInvalid⟩

/-- The handler `GraphQLView.__call__`: decode the query-string variables (a failure is
answered before anything else), dispatch on the lower-cased method —
OPTIONS to preflight, POST through `parse_body` (a decode failure is
caught, a non-dict body raises `AttributeError` at `data.get`), GET to the
query parameter, anything else to 405 — and continue with `processQuery`. -/
def call (cfg : GraphQLView) (eng : Engine) (loads : String → Except Unit Json)
    (req : Request) : Except PyExn HandleResult :=
  match loads (varParam req) with
  | .error _ =>
    .ok ⟨error_response "Variables are invalid JSON." 400 [],
         some (error_body "Variables are invalid JSON."), none, .varsBad⟩
  | .ok variables0 =>
    if pyLower req.method = "options" then
      let resp := process_preflight cfg req
      .ok ⟨resp, none, none, if resp.status = 200 then .preflightOk else .preflightBad⟩
    else if pyLower req.method = "post" then
      match parse_body loads req with
      | .error _ =>
        .ok ⟨error_response "POST body sent invalid JSON." 400 [],
             some (error_body "POST body sent invalid JSON."), none, .postBadJson⟩
      | .ok (.obj data) =>
        processQuery cfg eng loads req (pyLower req.method) variables0 data.toList
          (post_op_name data.toList (queryGet req "operationName"))
      | .ok _ => .error .attributeError
    else if pyLower req.method = "get" then
      processQuery cfg eng loads req (pyLower req.method) variables0
        [("query", get_query_json req)]
        ((queryGet req "operationName").map Json.str)
    else
      .ok ⟨error_response "GraphQL only supports GET and POST requests." 405
             [("Allow", "GET, POST")],
           some (error_body "GraphQL only supports GET and POST requests."),
           none, .methodNA⟩

/-- The data/operation-name extraction of the GET and POST dispatch arms,
as one partial map: `none` when the request never reaches `processQuery`. -/
def dispatch_data (loads : String → Except Unit Json) (req : Request) :
    Option (List (String × Json) × Option Json) :=
  match pyLower req.method with
  | "post" =>
    match parse_body loads req with
    | .ok (.obj d) => some (d.toList, post_op_name d.toList (queryGet req "operationName"))
    | _ => none
  | "get" => some ([("query", get_query_json req)],
                   (queryGet req "operationName").map Json.str)
  | _ => none

/-! ## Concrete fixtures for counterexamples and witnesses -/

/-- An engine that parses, resolves a query operation, validates and
executes successfully with empty data. -/
def engOk : Engine :=
  ⟨[], fun _ => .ok ⟨0⟩, fun _ _ => some ⟨"query"⟩, fun _ => [],
   fun _ _ _ _ => ⟨some (jObj []), []⟩⟩

/-- An engine whose `execute` reports a field error alongside data. -/
def engFieldErr : Engine :=
  ⟨[], fun _ => .ok ⟨0⟩, fun _ _ => some ⟨"query"⟩, fun _ => [],
   fun _ _ _ _ => ⟨some (jObj []), [mkErr "boom"]⟩⟩

/-- An engine that resolves no operation and then fails document
validation. -/
def engNoOpValFail : Engine :=
  ⟨[], fun _ => .ok ⟨0⟩, fun _ _ => none, fun _ => [mkErr "no operation"],
   fun _ _ _ _ => ⟨none, []⟩⟩

/-- An engine that resolves no operation but passes document validation;
its `execute` reports a diagnostic. -/
def engNoOp : Engine :=
  ⟨[], fun _ => .ok ⟨0⟩, fun _ _ => none, fun _ => [],
   fun _ _ _ _ => ⟨none, [mkErr "Unknown operation"]⟩⟩

/-- An engine that resolves a mutation operation. -/
def engMutation : Engine :=
  ⟨[], fun _ => .ok ⟨0⟩, fun _ _ => some ⟨"mutation"⟩, fun _ => [],
   fun _ _ _ _ => ⟨none, []⟩⟩

/-- A plain GET request carrying a query. -/
def reqGetQ : Request := ⟨"GET", [("query", "\x7btest\x7d")], [], "", "", []⟩

example :
    call {} engOk jsonParse reqGetQ =
      .ok ⟨⟨200, [], some "application/json", some "\x7b\"data\":\x7b\x7d\x7d"⟩,
           some (jObj [("data", jObj [])]),
           some ⟨⟨0⟩, [], none, [("request", .req reqGetQ)]⟩,
           .executed false⟩ := rfl

/-! ## Dictionary lemmas -/

theorem dictGet_nil (k : String) : dictGet [] k = none := rfl

theorem dictGet_cons (p : String × Json) (ps : List (String × Json)) (k : String) :
    dictGet (p :: ps) k = if p.1 = k then some p.2 else dictGet ps k := by
  by_cases h : p.1 = k
  · simp [dictGet, List.find?, h]
  · have hb : (p.1 == k) = false := beq_eq_false_iff_ne.mpr h
    simp [dictGet, List.find?, hb, h]

theorem dictGet_append (xs ys : List (String × Json)) (k : String) :
    dictGet (xs ++ ys) k =
      match dictGet xs k with
      | some v => some v
      | none => dictGet ys k := by
  induction xs with
  | nil => simp [dictGet_nil]
  | cons p xs ih =>
    rw [List.cons_append, dictGet_cons, dictGet_cons]
    by_cases h : p.1 = k <;> simp [h, ih]

theorem dictGet_map_override (a b : List (String × Json)) (k : String) :
    dictGet (a.map (fun p => match dictGet b p.1 with
      | some v => (p.1, v)
      | none => p)) k =
      match dictGet a k with
      | some v => some ((dictGet b k).getD v)
      | none => none := by
  induction a with
  | nil => simp [dictGet_nil]
  | cons p a ih =>
    by_cases h : p.1 = k
    · subst h
      cases hb : dictGet b p.1 <;>
        simp [List.map_cons, dictGet_cons, hb]
    · cases hb : dictGet b p.1 <;>
        simp [List.map_cons, dictGet_cons, hb, h, ih]

theorem dictGet_filter_missing (a b : List (String × Json)) (k : String) :
    dictGet (b.filter (fun p => (dictGet a p.1).isNone)) k =
      if (dictGet a k).isNone then dictGet b k else none := by
  induction b with
  | nil => simp [dictGet_nil]
  | cons p b ih =>
    by_cases h : p.1 = k
    · subst h
      cases ha : dictGet a p.1 <;>
        simp [List.filter_cons, ha, dictGet_cons, ih]
    · cases ha : dictGet a p.1 <;>
        simp [List.filter_cons, ha, dictGet_cons, h, ih]

/-- The merged dict of `dictUpdate`: a key maps to the `b` value when `b`
binds it, else to the `a` value. -/
theorem dictGet_dictUpdate (a b : List (String × Json)) (k : String) :
    dictGet (dictUpdate a b) k =
      match dictGet b k with
      | some v => some v
      | none => dictGet a k := by
  unfold dictUpdate
  rw [dictGet_append, dictGet_map_override, dictGet_filter_missing]
  cases hb : dictGet b k <;> cases ha : dictGet a k <;> simp [ha, hb]

/-! ## Structural lemmas about the handler -/

/-- What `get_context` builds, by configured-context shape: a mapping is
copied and gets the request injected unless it already binds "request";
everything else (None, falsy or non-mapping) yields exactly the
request-only mapping. -/
theorem get_context_eq (cfg : GraphQLView) (req : Request) :
    get_context cfg req =
      match cfg.context with
      | .mapping kvs =>
        if kvs.any (fun p => p.1 == "request") then kvs
        else kvs ++ [("request", CtxVal.req req)]
      | _ => [("request", CtxVal.req req)] := by
  unfold get_context
  cases hc : cfg.context with
  | pyNone => simp
  | mapping kvs =>
    by_cases he : kvs.isEmpty
    · have hk : kvs = [] := List.isEmpty_iff.mp he
      subst hk
      simp
    · simp only [if_neg he]
  | other t => simp

/-- A GET request with decodable query-string variables reaches
`processQuery` with the query-parameter operation data. -/
theorem call_get (cfg : GraphQLView) (eng : Engine) (loads : String → Except Unit Json)
    (req : Request) (v0 : Json) (hm : pyLower req.method = "get")
    (hv : loads (varParam req) = .ok v0) :
    call cfg eng loads req =
      processQuery cfg eng loads req "get" v0 [("query", get_query_json req)]
        ((queryGet req "operationName").map Json.str) := by
  unfold call
  rw [hv]
  simp [hm]

/-- A POST request with decodable query-string variables whose body parses
to a mapping reaches `processQuery` with that mapping. -/
theorem call_post (cfg : GraphQLView) (eng : Engine) (loads : String → Except Unit Json)
    (req : Request) (v0 : Json) (d : JsonM) (hm : pyLower req.method = "post")
    (hv : loads (varParam req) = .ok v0)
    (hb : parse_body loads req = .ok (.obj d)) :
    call cfg eng loads req =
      processQuery cfg eng loads req "post" v0 d.toList
        (post_op_name d.toList (queryGet req "operationName")) := by
  unfold call
  rw [hv]
  simp [hm, hb]

/-- An OPTIONS request with decodable query-string variables is answered by
preflight processing, with no body and no engine call. -/
theorem call_options (cfg : GraphQLView) (eng : Engine) (loads : String → Except Unit Json)
    (req : Request) (v0 : Json) (hm : pyLower req.method = "options")
    (hv : loads (varParam req) = .ok v0) :
    call cfg eng loads req =
      .ok ⟨process_preflight cfg req, none, none,
        if (process_preflight cfg req).status = 200 then .preflightOk else .preflightBad⟩ := by
  unfold call
  rw [hv]
  simp [hm]

set_option maxHeartbeats 1000000 in
/-- Within `processQuery`, any `execute` invocation receives
`get_context` as its context argument. -/
theorem processQuery_context (cfg : GraphQLView) (eng : Engine)
    (loads : String → Except Unit Json) (req : Request) (m : String) (v0 : Json)
    (data : List (String × Json)) (opName : Option Json) (r : HandleResult)
    (c : ExecCall) (h : processQuery cfg eng loads req m v0 data opName = .ok r)
    (hc : r.execCall = some c) :
    c.context = get_context cfg req := by
  unfold processQuery validate_and_execute run_execute at h
  repeat' split at h
  all_goals try exact Except.noConfusion h
  all_goals injection h with h2
  all_goals subst h2
  all_goals try exact Option.noConfusion hc
  all_goals have hc2 := Option.some.inj hc
  all_goals subst hc2
  all_goals rfl

/-- Whenever the handler invokes `execute`, the context argument is exactly
`get_context` of the configuration and request. -/
theorem call_context (cfg : GraphQLView) (eng : Engine)
    (loads : String → Except Unit Json) (req : Request) (r : HandleResult)
    (c : ExecCall) (h : call cfg eng loads req = .ok r) (hc : r.execCall = some c) :
    c.context = get_context cfg req := by
  unfold call at h
  repeat' split at h
  all_goals first
    | exact Except.noConfusion h
    | exact processQuery_context _ _ _ _ _ _ _ _ _ _ h hc
    | (injection h with h2; subst h2; exact Option.noConfusion hc)

/-- The status discipline of the adapter: 200 exactly for accepted
preflights, tool pages and encodings with the invalid flag unset (engine
errors do not change the status); 405 exactly for unsupported methods and
GET-with-non-query operations; everything else 400. -/
def statusSpec (r : HandleResult) : Prop :=
  (r.response.status = 200 ↔
    (r.exit = .preflightOk ∨ r.exit = .toolPage ∨ r.exit = .executed false)) ∧
  (r.response.status = 405 ↔ (r.exit = .methodNA ∨ r.exit = .opTypeMismatch)) ∧
  (r.response.status = 200 ∨ r.response.status = 400 ∨ r.response.status = 405)

set_option maxHeartbeats 1000000 in
/-- Every `processQuery` outcome obeys the status discipline. -/
theorem processQuery_statusSpec (cfg : GraphQLView) (eng : Engine)
    (loads : String → Except Unit Json) (req : Request) (m : String) (v0 : Json)
    (data : List (String × Json)) (opName : Option Json) (r : HandleResult)
    (h : processQuery cfg eng loads req m v0 data opName = .ok r) :
    statusSpec r := by
  unfold processQuery validate_and_execute run_execute at h
  repeat' split at h
  all_goals try exact Except.noConfusion h
  all_goals injection h with h2
  all_goals subst h2
  all_goals simp [statusSpec, encode_response, error_response]

set_option maxHeartbeats 1000000 in
/-- Every handler outcome obeys the status discipline. -/
theorem call_statusSpec (cfg : GraphQLView) (eng : Engine)
    (loads : String → Except Unit Json) (req : Request) (r : HandleResult)
    (h : call cfg eng loads req = .ok r) :
    statusSpec r := by
  unfold call at h
  repeat' split at h
  all_goals first
    | exact Except.noConfusion h
    | exact processQuery_statusSpec _ _ _ _ _ _ _ _ _ h
    | (injection h with h2
       subst h2
       first
         | (simp [statusSpec, encode_response, error_response]; done)
         | (unfold statusSpec process_preflight
            split <;> simp))

/-! ## Error-entry pruning (no null locations or path keys) -/

theorem jsonM_toList_ofList (l : List (String × Json)) :
    (JsonM.ofList l).toList = l := by
  induction l with
  | nil => rfl
  | cons p l ih =>
    cases p with
    | mk k v => simp [JsonM.ofList, JsonM.toList, ih]

theorem jsonL_toList_ofList (l : List Json) :
    (JsonL.ofList l).toList = l := by
  induction l with
  | nil => rfl
  | cons x l ih => simp [JsonL.ofList, JsonL.toList, ih]

/-- An error entry is clean when it binds neither `locations` nor `path`
to a null value. -/
def error_entry_clean : Json → Bool
  | .obj kvs => (JsonM.toList kvs).all (fun p =>
      !((p.1 == "locations" || p.1 == "path") && isNullJ p.2))
  | _ => true

/-- A response body is clean when every entry of its `errors` array is. -/
def body_errors_clean : Json → Bool
  | .obj kvs =>
    (match dictGet (JsonM.toList kvs) "errors" with
     | some (.arr es) => (JsonL.toList es).all error_entry_clean
     | _ => true)
  | _ => true

/-- Pruning deletes exactly the null `locations` and `path` entries, so the
result is always clean. -/
theorem prune_error_clean (kvs : List (String × Json)) :
    error_entry_clean (jObj (prune_error kvs)) = true := by
  simp only [jObj, error_entry_clean, jsonM_toList_ofList, List.all_eq_true]
  intro p hp
  rw [prune_error, List.mem_filter] at hp
  obtain ⟨-, hpred⟩ := hp
  cases ha : (p.1 == "locations") <;> cases hb2 : (p.1 == "path") <;>
    cases hn : isNullJ p.2 <;> simp_all

/-- A message-only error body is clean. -/
theorem error_body_clean (msg : String) :
    body_errors_clean (error_body msg) = true := rfl

/-- Every body built by `encode_response` is clean: its error entries are
pruned of null `locations` and `path`. -/
theorem response_body_clean (result : ExecutionResult) (invalid : Bool) :
    body_errors_clean (jObj (response_body result invalid)) = true := by
  unfold response_body
  cases he : result.errors with
  | nil =>
    show body_errors_clean (jObj [("data", optJson result.data)]) = true
    simp [body_errors_clean, jObj, jsonM_toList_ofList, dictGet_cons, dictGet_nil]
  | cons e es =>
    show body_errors_clean (jObj
      (if (result.data.isNone && invalid) = true
       then [("errors", jArr ((e :: es).map (fun err => jObj (prune_error err.formatted))))]
       else [("data", optJson result.data),
             ("errors", jArr ((e :: es).map (fun err => jObj (prune_error err.formatted))))])) =
      true
    by_cases hd : result.data.isNone && invalid
    · rw [if_pos hd]
      show body_errors_clean (jObj [("errors",
        jArr ((e :: es).map (fun err => jObj (prune_error err.formatted))))]) = true
      simp [body_errors_clean, jObj, jArr, jsonM_toList_ofList, jsonL_toList_ofList,
        dictGet_cons, dictGet_nil]
      exact ⟨prune_error_clean _, fun a _ => prune_error_clean _⟩
    · rw [if_neg hd]
      show body_errors_clean (jObj [("data", optJson result.data), ("errors",
        jArr ((e :: es).map (fun err => jObj (prune_error err.formatted))))]) = true
      simp [body_errors_clean, jObj, jArr, jsonM_toList_ofList, jsonL_toList_ofList,
        dictGet_cons, dictGet_nil]
      exact ⟨prune_error_clean _, fun a _ => prune_error_clean _⟩

set_option maxHeartbeats 1000000 in
/-- Every structured body `processQuery` serializes is clean. -/
theorem processQuery_body_clean (cfg : GraphQLView) (eng : Engine)
    (loads : String → Except Unit Json) (req : Request) (m : String) (v0 : Json)
    (data : List (String × Json)) (opName : Option Json) (r : HandleResult)
    (b : Json) (h : processQuery cfg eng loads req m v0 data opName = .ok r)
    (hb : r.bodyJson = some b) :
    body_errors_clean b = true := by
  unfold processQuery validate_and_execute run_execute at h
  repeat' split at h
  all_goals try exact Except.noConfusion h
  all_goals injection h with h2
  all_goals subst h2
  all_goals first
    | exact Option.noConfusion hb
    | (have hb2 := Option.some.inj hb
       subst hb2
       first
         | exact response_body_clean _ _
         | exact error_body_clean _)

set_option maxHeartbeats 1000000 in
/-- Every structured body the handler serializes is clean: no error entry
carries a null `locations` or `path` key. -/
theorem call_body_clean (cfg : GraphQLView) (eng : Engine)
    (loads : String → Except Unit Json) (req : Request) (r : HandleResult)
    (b : Json) (h : call cfg eng loads req = .ok r) (hb : r.bodyJson = some b) :
    body_errors_clean b = true := by
  unfold call at h
  repeat' split at h
  all_goals first
    | exact Except.noConfusion h
    | exact processQuery_body_clean _ _ _ _ _ _ _ _ _ _ h hb
    | (injection h with h2
       subst h2
       first
         | exact Option.noConfusion hb
         | (have hb2 := Option.some.inj hb
            subst hb2
            exact error_body_clean _))

/-! ## Further fixtures -/

/-- The successful-run outcome for `reqGetQ` under the default view. -/
def resOkGetQ : HandleResult :=
  ⟨⟨200, [], some "application/json", some "\x7b\"data\":\x7b\x7d\x7d"⟩,
   some (jObj [("data", jObj [])]),
   some ⟨⟨0⟩, [], none, [("request", .req reqGetQ)]⟩, .executed false⟩

/-- A view with a configured GraphiQL tool (rendered page text fixed). -/
def cfgTool : GraphQLView :=
  { tool := some ⟨"/graphql/graphiql", "/graphql", "<html>GraphiQL</html>"⟩ }

/-- A GET request with no query parameter whose client accepts HTML. -/
def reqGetTool : Request := ⟨"GET", [], [("Accept", "text/html")], "", "", []⟩

/-- A GET request with no query parameter and no Accept header. -/
def reqGetNoQ : Request := ⟨"GET", [], [], "", "", []⟩

/-- A POST body carrying a JSON-string `variables` field that is itself
invalid JSON. -/
def reqPostBadVarsStr : Request :=
  ⟨"POST", [], [], "application/json",
   "\x7b\"query\":\"\x7btest\x7d\",\"variables\":\"\x7b\"\x7d", []⟩

/-- A POST request with an unparseable JSON body. -/
def reqPostBadBody : Request := ⟨"POST", [], [], "application/json", "\x7b", []⟩

/-- A POST request supplying variables both in the query string and in the
body, with distinct keys. -/
def reqPostMerge : Request :=
  ⟨"POST", [("variables", "\x7b\"a\":1\x7d")], [], "application/json",
   "\x7b\"query\":\"\x7btest\x7d\",\"variables\":\x7b\"b\":2\x7d\x7d", []⟩

/-- The `execute` arguments for `reqPostMerge`: both variable sources
merged. -/
def execPostMerge : ExecCall :=
  ⟨⟨0⟩, [("a", Json.num 1), ("b", Json.num 2)], none,
   [("request", .req reqPostMerge)]⟩

/-- The outcome of `reqPostMerge` under the default view and `engOk`. -/
def resPostMerge : HandleResult :=
  ⟨⟨200, [], some "application/json", some "\x7b\"data\":\x7b\x7d\x7d"⟩,
   some (jObj [("data", jObj [])]), some execPostMerge, .executed false⟩

/-- A view configured with a mapping context. -/
def cfgCtxMap : GraphQLView := { context := .mapping [("user", CtxVal.atom 7)] }

/-- A view configured with a truthy non-mapping context. -/
def cfgCtxAtom : GraphQLView := { context := .other true }

/-- The `execute` arguments under `cfgCtxMap`: the copied mapping plus the
injected request. -/
def execCtxMap : ExecCall :=
  ⟨⟨0⟩, [], none, [("user", CtxVal.atom 7), ("request", .req reqGetQ)]⟩

/-- The outcome of `reqGetQ` under `cfgCtxMap` and `engOk`. -/
def resCtxMap : HandleResult :=
  ⟨⟨200, [], some "application/json", some "\x7b\"data\":\x7b\x7d\x7d"⟩,
   some (jObj [("data", jObj [])]), some execCtxMap, .executed false⟩

/-- An OPTIONS request with a lower-case requested method. -/
def reqPreflight : Request :=
  ⟨"OPTIONS", [],
   [("Origin", "http://x"), ("Access-Control-Request-Method", "post")], "", "", []⟩

/-- An OPTIONS request whose `variables` query parameter is invalid JSON. -/
def reqPreflightBadVars : Request :=
  ⟨"OPTIONS", [("variables", "\x7b")],
   [("Origin", "http://x"), ("Access-Control-Request-Method", "POST")], "", "", []⟩

/-- An engine whose execution error carries locations but no path. -/
def engLocErr : Engine :=
  ⟨[], fun _ => .ok ⟨0⟩, fun _ _ => some ⟨"query"⟩, fun _ => [],
   fun _ _ _ _ => ⟨none, [⟨"boom", some [(1, 2)], none⟩]⟩⟩

/-- The body produced for `reqGetQ` under `engLocErr`: the error entry
keeps `locations` and has its null `path` deleted. -/
def bodyLocErr : Json :=
  jObj [("data", Json.null),
        ("errors", jArr [jObj [("message", Json.str "boom"),
          ("locations", jArr [jObj [("line", Json.num 1), ("column", Json.num 2)]])]])]

/-- The outcome of `reqGetQ` under `engLocErr`. -/
def resLocErr : HandleResult :=
  ⟨⟨200, [], some "application/json",
    some "\x7b\"data\":null,\"errors\":[\x7b\"message\":\"boom\",\"locations\":[\x7b\"line\":1,\"column\":2\x7d]\x7d]\x7d"⟩,
   some bodyLocErr,
   some ⟨⟨0⟩, [], none, [("request", .req reqGetQ)]⟩, .executed false⟩

/-! ## Claims -/

/-- Claim C2, counterexample: a GET request whose execution outcome carries
a field error is still answered with status 200 (the body shows the error),
so the HTTP status is not 200 "only when the execution outcome contains no
errors". -/
theorem c2_counterexample_errors_with_200 :
    call {} engFieldErr jsonParse reqGetQ =
      .ok ⟨⟨200, [], some "application/json",
            some "\x7b\"data\":\x7b\x7d,\"errors\":[\x7b\"message\":\"boom\"\x7d]\x7d"⟩,
           some (jObj [("data", jObj []),
             ("errors", jArr [jObj [("message", Json.str "boom")]])]),
           some ⟨⟨0⟩, [], none, [("request", .req reqGetQ)]⟩,
           .executed false⟩ := rfl

/-- Claim C2, amended: the status is 200 exactly for accepted preflights,
tool pages and encoded results whose invalid flag is unset — execution
errors do not affect the status; 405 exactly for unsupported methods and
GET-with-non-query operations; every other response is 400. -/
theorem c2_status_amended (cfg : GraphQLView) (eng : Engine)
    (loads : String → Except Unit Json) (req : Request) (r : HandleResult)
    (h : call cfg eng loads req = .ok r) :
    (r.response.status = 200 ↔
      (r.exit = .preflightOk ∨ r.exit = .toolPage ∨ r.exit = .executed false)) ∧
    (r.response.status = 405 ↔ (r.exit = .methodNA ∨ r.exit = .opTypeMismatch)) ∧
    (r.response.status = 200 ∨ r.response.status = 400 ∨ r.response.status = 405) :=
  call_statusSpec cfg eng loads req r h

/-- Claim C2, witness: the amended status discipline at a concrete
successful GET run. -/
theorem c2_witness :
    (resOkGetQ.response.status = 200 ↔
      (resOkGetQ.exit = .preflightOk ∨ resOkGetQ.exit = .toolPage ∨
        resOkGetQ.exit = .executed false)) ∧
    (resOkGetQ.response.status = 405 ↔
      (resOkGetQ.exit = .methodNA ∨ resOkGetQ.exit = .opTypeMismatch)) ∧
    (resOkGetQ.response.status = 200 ∨ resOkGetQ.response.status = 400 ∨
      resOkGetQ.response.status = 405) :=
  c2_status_amended {} engOk jsonParse reqGetQ resOkGetQ rfl

/-- Claim C4, counterexample: with a truthy non-mapping configured context
the engine does not receive that value unmodified — it receives the fresh
mapping containing only the injected request. -/
theorem c4_counterexample_non_mapping_context :
    call cfgCtxAtom engOk jsonParse reqGetQ =
      .ok ⟨⟨200, [], some "application/json", some "\x7b\"data\":\x7b\x7d\x7d"⟩,
           some (jObj [("data", jObj [])]),
           some ⟨⟨0⟩, [], none, [("request", CtxVal.req reqGetQ)]⟩,
           .executed false⟩ := rfl

/-- Claim C4, amended: the context the engine receives is a copy of the
configured mapping with the request injected under "request" unless that
key is present; for any non-mapping (or None) configured context it is the
fresh request-only mapping — the configured value is discarded, not passed
through. -/
theorem c4_context_amended (cfg : GraphQLView) (eng : Engine)
    (loads : String → Except Unit Json) (req : Request) (r : HandleResult)
    (c : ExecCall) (h : call cfg eng loads req = .ok r) (hc : r.execCall = some c) :
    c.context =
      (match cfg.context with
       | .mapping kvs =>
         if kvs.any (fun p => p.1 == "request") then kvs
         else kvs ++ [("request", CtxVal.req req)]
       | _ => [("request", CtxVal.req req)]) :=
  (call_context cfg eng loads req r c h hc).trans (get_context_eq cfg req)

/-- Claim C4, witness: the amended context construction at a concrete run
with a configured mapping context. -/
theorem c4_witness :
    execCtxMap.context =
      (match cfgCtxMap.context with
       | .mapping kvs =>
         if kvs.any (fun p => p.1 == "request") then kvs
         else kvs ++ [("request", CtxVal.req reqGetQ)]
       | _ => [("request", CtxVal.req reqGetQ)]) :=
  c4_context_amended cfgCtxMap engOk jsonParse reqGetQ resCtxMap execCtxMap rfl rfl

/-- Claim C9: in every structured body the adapter serializes, no entry of
the errors array binds `locations` or `path` to a null value — the keys are
deleted outright when their value would be null. -/
theorem c9_error_entries_pruned (cfg : GraphQLView) (eng : Engine)
    (loads : String → Except Unit Json) (req : Request) (r : HandleResult)
    (b : Json) (h : call cfg eng loads req = .ok r) (hb : r.bodyJson = some b) :
    body_errors_clean b = true :=
  call_body_clean cfg eng loads req r b h hb

/-- Claim C9, witness: the pruning at a concrete run whose error carries
locations and a null path. -/
theorem c9_witness : body_errors_clean bodyLocErr = true :=
  c9_error_entries_pruned {} engLocErr jsonParse reqGetQ resLocErr bodyLocErr rfl rfl

/-- Claim C10: the handler is not total over valid-JSON POST bodies — a
body whose `variables` field is a string that is itself invalid JSON makes
the second decode raise an uncaught `JSONDecodeError`, so the adapter
produces no HTTP response at all for that request. -/
theorem c10_uncaught_second_decode :
    call {} engOk jsonParse reqPostBadVarsStr = .error PyExn.jsonDecodeError := rfl

/-- Claim C1, counterexample: a GET request with no query, sent to a view
with a configured tool by an HTML-accepting client, is answered with the
200 tool page instead of the 400 must-provide-query error, and before the
missing-query check is reached. -/
theorem c1_counterexample_tool_page :
    call cfgTool engOk jsonParse reqGetTool =
      .ok ⟨⟨200, [], some "text/html", some "<html>GraphiQL</html>"⟩,
           none, none, .toolPage⟩ := rfl

/-- Claim C1, amended: for every GET or POST request that reaches operation
extraction (decodable variables parameter, for POST a body parsing to a
mapping, variable merging succeeding) and is not served a tool page, a
missing or empty extracted `query` yields status 400 with the single error
"Must provide query string.", no data key, and no engine invocation. -/
theorem c1_missing_query_amended (cfg : GraphQLView) (eng : Engine)
    (loads : String → Except Unit Json) (req : Request) (v0 : Json)
    (data : List (String × Json)) (opName : Option Json) (vars : List (String × Json))
    (hv : loads (varParam req) = .ok v0)
    (hd : dispatch_data loads req = some (data, opName))
    (hmer : merge_variables loads v0 data = .ok vars)
    (htool : is_tool cfg req = false)
    (hq : query_falsy data = true) :
    ∃ r, call cfg eng loads req = .ok r ∧
      r.response.status = 400 ∧ r.execCall = none ∧
      r.bodyJson = some (jObj [("errors",
        jArr [jObj [("message", Json.str "Must provide query string.")]])]) ∧
      r.response.text = some (json_encode (is_pretty cfg req) (jObj [("errors",
        jArr [jObj [("message", Json.str "Must provide query string.")]])])) := by
  unfold dispatch_data at hd
  split at hd
  · split at hd
    · rename_i d heq
      have hm : pyLower req.method = "post" := by assumption
      injection hd with hd2
      rw [Prod.mk.injEq] at hd2
      obtain ⟨hdata, hopn⟩ := hd2
      subst hdata
      subst hopn
      have hcall : processQuery cfg eng loads req "post" v0 d.toList
          (post_op_name d.toList (queryGet req "operationName")) =
          .ok ⟨encode_response cfg req ⟨none, [mkErr "Must provide query string."]⟩ true,
               some (jObj (response_body ⟨none, [mkErr "Must provide query string."]⟩ true)),
               none, .queryMissing⟩ := by
        unfold processQuery
        rw [hmer]
        simp [htool, hq]
      exact ⟨_, (call_post cfg eng loads req v0 d hm hv heq).trans hcall,
             rfl, rfl, rfl, rfl⟩
    · exact Option.noConfusion hd
  · have hm : pyLower req.method = "get" := by assumption
    injection hd with hd2
    rw [Prod.mk.injEq] at hd2
    obtain ⟨hdata, hopn⟩ := hd2
    subst hdata
    subst hopn
    have hcall : processQuery cfg eng loads req "get" v0 [("query", get_query_json req)]
        ((queryGet req "operationName").map Json.str) =
        .ok ⟨encode_response cfg req ⟨none, [mkErr "Must provide query string."]⟩ true,
             some (jObj (response_body ⟨none, [mkErr "Must provide query string."]⟩ true)),
             none, .queryMissing⟩ := by
      unfold processQuery
      rw [hmer]
      simp [htool, hq]
    exact ⟨_, (call_get cfg eng loads req v0 hm hv).trans hcall, rfl, rfl, rfl, rfl⟩
  · exact Option.noConfusion hd

/-- Claim C1, witness: the amended property at a concrete GET request with
no query parameter. -/
theorem c1_witness :
    ∃ r, call {} engOk jsonParse reqGetNoQ = .ok r ∧
      r.response.status = 400 ∧ r.execCall = none ∧
      r.bodyJson = some (jObj [("errors",
        jArr [jObj [("message", Json.str "Must provide query string.")]])]) ∧
      r.response.text = some (json_encode (is_pretty {} reqGetNoQ) (jObj [("errors",
        jArr [jObj [("message", Json.str "Must provide query string.")]])])) :=
  c1_missing_query_amended {} engOk jsonParse reqGetNoQ (jObj [])
    [("query", Json.null)] none [] rfl rfl rfl rfl rfl

/-- When the parsed body binds `variables` to a mapping, the merge is
exactly `dictUpdate` of the query-string variables with the body ones. -/
theorem merge_variables_obj (loads : String → Except Unit Json) (vq bv : JsonM)
    (data : List (String × Json))
    (hbv : dictGet data "variables" = some (.obj bv)) :
    merge_variables loads (.obj vq) data = .ok (dictUpdate vq.toList bv.toList) := by
  unfold merge_variables
  rw [hbv]
  cases bv with
  | nil => rfl
  | cons k v kvs => rfl

set_option maxHeartbeats 1000000 in
/-- Within `processQuery`, any `execute` invocation receives exactly the
merged variables. -/
theorem processQuery_vars (cfg : GraphQLView) (eng : Engine)
    (loads : String → Except Unit Json) (req : Request) (m : String) (v0 : Json)
    (data : List (String × Json)) (opName : Option Json) (r : HandleResult)
    (c : ExecCall) (vars : List (String × Json))
    (hmer : merge_variables loads v0 data = .ok vars)
    (h : processQuery cfg eng loads req m v0 data opName = .ok r)
    (hc : r.execCall = some c) :
    c.variable_values = vars := by
  unfold processQuery validate_and_execute run_execute at h
  repeat' split at h
  all_goals try exact Except.noConfusion h
  all_goals injection h with h2
  all_goals subst h2
  all_goals try exact Option.noConfusion hc
  all_goals have hc2 := Option.some.inj hc
  all_goals subst hc2
  all_goals have h3 := Except.ok.inj (hmer.symm.trans (by assumption))
  all_goals exact h3.symm

/-- Claim C3, counterexample: with query-string variables binding `a` to 1
and body variables binding `a` to 2, the engine receives `a` bound to 2 —
the body value overrides the query-string one, not the other way around. -/
theorem c3_counterexample_body_overrides :
    Except.map (fun r => r.execCall.map (fun c => c.variable_values))
        (call {} engOk jsonParse
          ⟨"POST", [("variables", "\x7b\"a\":1\x7d")], [], "application/json",
           "\x7b\"query\":\"\x7btest\x7d\",\"variables\":\x7b\"a\":2\x7d\x7d", []⟩) =
      .ok (some [("a", Json.num 2)]) := rfl

/-- Claim C3, amended: when variables come both from the query string and
from a body mapping, the engine receives their `dictUpdate` merge — it
contains every key of both sources, and for a key present in both the body
value is kept (query-string values survive only where the body does not
bind the key); disjoint sources simply combine. -/
theorem c3_variables_merge_amended (cfg : GraphQLView) (eng : Engine)
    (loads : String → Except Unit Json) (req : Request) (vq bv : JsonM)
    (data : List (String × Json)) (opName : Option Json) (r : HandleResult)
    (c : ExecCall)
    (hv : loads (varParam req) = .ok (.obj vq))
    (hd : dispatch_data loads req = some (data, opName))
    (hbv : dictGet data "variables" = some (.obj bv))
    (h : call cfg eng loads req = .ok r)
    (hc : r.execCall = some c) :
    c.variable_values = dictUpdate vq.toList bv.toList ∧
    ∀ k, dictGet c.variable_values k =
      (match dictGet bv.toList k with
       | some v => some v
       | none => dictGet vq.toList k) := by
  have hmer := merge_variables_obj loads vq bv data hbv
  unfold dispatch_data at hd
  split at hd
  · split at hd
    · rename_i d heq
      have hm : pyLower req.method = "post" := by assumption
      injection hd with hd2
      rw [Prod.mk.injEq] at hd2
      obtain ⟨hdata, hopn⟩ := hd2
      subst hdata
      subst hopn
      rw [call_post cfg eng loads req (.obj vq) d hm hv heq] at h
      have hvv := processQuery_vars cfg eng loads req "post" (.obj vq) d.toList
        (post_op_name d.toList (queryGet req "operationName")) r c
        (dictUpdate vq.toList bv.toList) hmer h hc
      refine ⟨hvv, fun k => ?_⟩
      rw [hvv, dictGet_dictUpdate]
    · exact Option.noConfusion hd
  · injection hd with hd2
    rw [Prod.mk.injEq] at hd2
    obtain ⟨hdata, hopn⟩ := hd2
    subst hdata
    rw [dictGet_cons] at hbv
    simp [dictGet_nil] at hbv
  · exact Option.noConfusion hd

/-- Claim C3, witness: the amended merge at a concrete POST with
query-string variables binding `a` and body variables binding `b`: the
engine receives exactly both bindings. -/
theorem c3_witness :
    execPostMerge.variable_values =
      dictUpdate (JsonM.cons "a" (Json.num 1) .nil).toList
        (JsonM.cons "b" (Json.num 2) .nil).toList ∧
    dictGet execPostMerge.variable_values "a" = some (Json.num 1) ∧
    dictGet execPostMerge.variable_values "b" = some (Json.num 2) := by
  have h := c3_variables_merge_amended {} engOk jsonParse reqPostMerge
    (JsonM.cons "a" (Json.num 1) .nil) (JsonM.cons "b" (Json.num 2) .nil)
    [("query", Json.str "\x7btest\x7d"), ("variables", jObj [("b", Json.num 2)])]
    none resPostMerge execPostMerge rfl rfl rfl rfl rfl
  exact ⟨h.1, (h.2 "a").trans rfl, (h.2 "b").trans rfl⟩

/-- Claim C5, counterexample: a request whose query parses but resolves no
operation is not guaranteed an engine invocation — when document validation
then reports errors, the handler short-circuits at the validation stage
(the response is still 400, but `execute` is never called). -/
theorem c5_counterexample_validation_short_circuit :
    call {} engNoOpValFail jsonParse reqGetQ =
      .ok ⟨⟨400, [], some "application/json",
            some "\x7b\"errors\":[\x7b\"message\":\"no operation\"\x7d]\x7d"⟩,
           some (jObj [("errors", jArr [jObj [("message", Json.str "no operation")]])]),
           none, .validationFailed⟩ := rfl

/-- Claim C5, amended: when the query parses, no operation resolves from
the given operation name, and document validation reports no errors, the
handler does not short-circuit — it marks the request invalid, still
invokes `execute`, and encodes the engine's result with status 400. -/
theorem c5_no_operation_amended (cfg : GraphQLView) (eng : Engine)
    (loads : String → Except Unit Json) (req : Request) (v0 : Json)
    (data : List (String × Json)) (opName : Option Json) (vars : List (String × Json))
    (doc : Document)
    (hv : loads (varParam req) = .ok v0)
    (hd : dispatch_data loads req = some (data, opName))
    (hmer : merge_variables loads v0 data = .ok vars)
    (htool : is_tool cfg req = false)
    (hq : query_falsy data = false)
    (hschema : eng.validate_schema = [])
    (hparse : eng.parse (query_json data) = .ok doc)
    (hop : eng.get_operation_ast doc opName = none)
    (hval : eng.validate doc = []) :
    call cfg eng loads req =
      .ok ⟨encode_response cfg req
             (eng.execute doc vars opName (get_context cfg req)) true,
           some (jObj (response_body
             (eng.execute doc vars opName (get_context cfg req)) true)),
           some ⟨doc, vars, opName, get_context cfg req⟩, .executed true⟩ ∧
    (encode_response cfg req
      (eng.execute doc vars opName (get_context cfg req)) true).status = 400 := by
  have hcall : ∀ m', processQuery cfg eng loads req m' v0 data opName =
      .ok ⟨encode_response cfg req
             (eng.execute doc vars opName (get_context cfg req)) true,
           some (jObj (response_body
             (eng.execute doc vars opName (get_context cfg req)) true)),
           some ⟨doc, vars, opName, get_context cfg req⟩, .executed true⟩ := by
    intro m'
    unfold processQuery validate_and_execute run_execute
    rw [hmer]
    simp [htool, hq, hschema, hparse, hop, hval, ite_self]
  refine ⟨?_, rfl⟩
  unfold dispatch_data at hd
  split at hd
  · split at hd
    · rename_i d heq
      have hm : pyLower req.method = "post" := by assumption
      injection hd with hd2
      rw [Prod.mk.injEq] at hd2
      obtain ⟨hdata, hopn⟩ := hd2
      subst hdata
      subst hopn
      exact (call_post cfg eng loads req v0 d hm hv heq).trans (hcall "post")
    · exact Option.noConfusion hd
  · have hm : pyLower req.method = "get" := by assumption
    injection hd with hd2
    rw [Prod.mk.injEq] at hd2
    obtain ⟨hdata, hopn⟩ := hd2
    subst hdata
    subst hopn
    exact (call_get cfg eng loads req v0 hm hv).trans (hcall "get")
  · exact Option.noConfusion hd

/-- Claim C5, witness: the amended no-short-circuit behavior at a concrete
GET request whose engine resolves no operation but validates cleanly. -/
theorem c5_witness :
    call {} engNoOp jsonParse reqGetQ =
      .ok ⟨encode_response {} reqGetQ
             (engNoOp.execute ⟨0⟩ [] none (get_context {} reqGetQ)) true,
           some (jObj (response_body
             (engNoOp.execute ⟨0⟩ [] none (get_context {} reqGetQ)) true)),
           some ⟨⟨0⟩, [], none, get_context {} reqGetQ⟩, .executed true⟩ ∧
    (encode_response {} reqGetQ
      (engNoOp.execute ⟨0⟩ [] none (get_context {} reqGetQ)) true).status = 400 :=
  c5_no_operation_amended {} engNoOp jsonParse reqGetQ (jObj [])
    [("query", Json.str "\x7btest\x7d")] none [] ⟨0⟩
    rfl rfl rfl rfl rfl rfl rfl rfl rfl

/-- Claim C6, counterexample: an OPTIONS request with an accepted requested
method but an invalid `variables` query parameter is answered by the
variables-decode failure (400 with a JSON error body), not by CORS
preflight handling. -/
theorem c6_counterexample_vars_precede_preflight :
    call {} engOk jsonParse reqPreflightBadVars =
      .ok ⟨⟨400, [], some "application/json",
            some "\x7b\"errors\": [\x7b\"message\": \"Variables are invalid JSON.\"\x7d]\x7d"⟩,
           some (error_body "Variables are invalid JSON."), none, .varsBad⟩ := rfl

/-- Claim C6, amended: for every OPTIONS request whose `variables` query
parameter decodes (or is absent), the response comes from preflight
processing with no GraphQL work: 200 with the Origin echo, the accepted
method list and the configured max-age when the upper-cased requested
method is one of GET, POST, PUT, DELETE; otherwise a bare 400. -/
theorem c6_preflight_amended (cfg : GraphQLView) (eng : Engine)
    (loads : String → Except Unit Json) (req : Request) (v0 : Json)
    (hm : pyLower req.method = "options")
    (hv : loads (varParam req) = .ok v0) :
    call cfg eng loads req =
      .ok ⟨process_preflight cfg req, none, none,
        if (process_preflight cfg req).status = 200
        then .preflightOk else .preflightBad⟩ ∧
    (if pyUpper ((headerGet req "Access-Control-Request-Method").getD "") ≠ "" ∧
        pyUpper ((headerGet req "Access-Control-Request-Method").getD "") ∈
          ["GET", "POST", "PUT", "DELETE"] then
      process_preflight cfg req =
        ⟨200, [("Access-Control-Allow-Origin", (headerGet req "Origin").getD ""),
               ("Access-Control-Allow-Methods", "GET, POST, PUT, DELETE"),
               ("Access-Control-Max-Age", toString cfg.max_age)], none, none⟩
    else process_preflight cfg req = ⟨400, [], none, none⟩) := by
  constructor
  · exact call_options cfg eng loads req v0 hm hv
  · unfold process_preflight
    split <;> rfl

/-- Claim C6, witness: the amended preflight behavior at a concrete OPTIONS
request with a lower-case requested method (the comparison is
case-insensitive). -/
theorem c6_witness :
    call {} engOk jsonParse reqPreflight =
      .ok ⟨process_preflight {} reqPreflight, none, none,
        if (process_preflight {} reqPreflight).status = 200
        then .preflightOk else .preflightBad⟩ ∧
    (if pyUpper ((headerGet reqPreflight "Access-Control-Request-Method").getD "") ≠ "" ∧
        pyUpper ((headerGet reqPreflight "Access-Control-Request-Method").getD "") ∈
          ["GET", "POST", "PUT", "DELETE"] then
      process_preflight {} reqPreflight =
        ⟨200, [("Access-Control-Allow-Origin",
                 (headerGet reqPreflight "Origin").getD ""),
               ("Access-Control-Allow-Methods", "GET, POST, PUT, DELETE"),
               ("Access-Control-Max-Age", toString (86400 : Nat))], none, none⟩
    else process_preflight {} reqPreflight = ⟨400, [], none, none⟩) :=
  c6_preflight_amended {} engOk jsonParse reqPreflight (jObj []) rfl rfl

/-- A GET operation dict has no `variables` entry, so the merge is the
query-string variables updated with nothing. -/
theorem merge_variables_query_only (loads : String → Except Unit Json)
    (vq : JsonM) (qv : Json) :
    merge_variables loads (.obj vq) [("query", qv)] =
      .ok (dictUpdate vq.toList []) := rfl

/-- Claim C7: a GET request whose resolved operation is not a read (query)
operation is rejected with status 405, header Allow POST, and the single
error message naming the operation type. -/
theorem c7_get_mutation_405 (cfg : GraphQLView) (eng : Engine)
    (loads : String → Except Unit Json) (req : Request) (vq : JsonM) (q : String)
    (doc : Document) (op : Operation)
    (hm : pyLower req.method = "get")
    (hv : loads (varParam req) = .ok (.obj vq))
    (htool : is_tool cfg req = false)
    (hq : queryGet req "query" = some q)
    (hqne : q ≠ "")
    (hschema : eng.validate_schema = [])
    (hparse : eng.parse (Json.str q) = .ok doc)
    (hop : eng.get_operation_ast doc ((queryGet req "operationName").map Json.str) =
      some op)
    (hot : op.operation ≠ "query") :
    call cfg eng loads req =
      .ok ⟨error_response ("Can only perform a " ++ op.operation ++
             " operation from a POST request.") 405 [("Allow", "POST")],
           some (error_body ("Can only perform a " ++ op.operation ++
             " operation from a POST request.")),
           none, .opTypeMismatch⟩ ∧
    (error_response ("Can only perform a " ++ op.operation ++
      " operation from a POST request.") 405 [("Allow", "POST")]).status = 405 ∧
    (error_response ("Can only perform a " ++ op.operation ++
      " operation from a POST request.") 405 [("Allow", "POST")]).headers =
      [("Allow", "POST")] := by
  have hgq : get_query_json req = .str q := by
    unfold get_query_json
    rw [hq]
  have hqf : query_falsy [("query", Json.str q)] = false := by
    unfold query_falsy
    rw [dictGet_cons]
    simp [jsonFalsy, hqne]
  refine ⟨?_, rfl, rfl⟩
  rw [call_get cfg eng loads req (.obj vq) hm hv, hgq]
  unfold processQuery
  rw [merge_variables_query_only]
  simp [htool, hqf, hschema, query_json, dictGet_cons, hparse, hop, hot]

/-- Claim C7, witness: a concrete GET request resolving to a mutation is
answered 405 with Allow POST and the mutation message. -/
theorem c7_witness :
    call {} engMutation jsonParse reqGetQ =
      .ok ⟨error_response ("Can only perform a " ++ "mutation" ++
             " operation from a POST request.") 405 [("Allow", "POST")],
           some (error_body ("Can only perform a " ++ "mutation" ++
             " operation from a POST request.")),
           none, .opTypeMismatch⟩ ∧
    (error_response ("Can only perform a " ++ "mutation" ++
      " operation from a POST request.") 405 [("Allow", "POST")]).status = 405 ∧
    (error_response ("Can only perform a " ++ "mutation" ++
      " operation from a POST request.") 405 [("Allow", "POST")]).headers =
      [("Allow", "POST")] :=
  c7_get_mutation_405 {} engMutation jsonParse reqGetQ .nil "\x7btest\x7d" ⟨0⟩
    ⟨"mutation"⟩ rfl rfl rfl rfl (by decide) rfl rfl rfl (by decide)

/-- Claim C8, counterexample: the invalid-JSON-body response is serialized
with Python's default separators (a space after each colon and comma), so
its text differs from the claimed compact serialization. -/
theorem c8_counterexample_spaced_body :
    call {} engOk jsonParse reqPostBadBody =
      .ok ⟨⟨400, [], some "application/json",
            some "\x7b\"errors\": [\x7b\"message\": \"POST body sent invalid JSON.\"\x7d]\x7d"⟩,
           some (error_body "POST body sent invalid JSON."), none, .postBadJson⟩ ∧
    ("\x7b\"errors\": [\x7b\"message\": \"POST body sent invalid JSON.\"\x7d]\x7d" ≠
      "\x7b\"errors\":[\x7b\"message\":\"POST body sent invalid JSON.\"\x7d]\x7d") :=
  ⟨rfl, by decide⟩

/-- Claim C8, amended: every POST request whose `variables` query
parameter is absent or valid JSON (the earlier variables-decode failure
would answer first otherwise), with JSON content type and an undecodable
body, is answered 400 with the single error "POST body sent invalid
JSON.", whose body text uses Python's default `json.dumps` separators
(spaces after colons and commas) rather than the compact form
`json_encode` uses elsewhere. -/
theorem c8_post_bad_json_amended (cfg : GraphQLView) (eng : Engine)
    (loads : String → Except Unit Json) (req : Request) (v0 : Json)
    (hm : pyLower req.method = "post")
    (hct : req.content_type = "application/json")
    (hv : loads (varParam req) = .ok v0)
    (hbody : loads req.bodyText = .error ()) :
    call cfg eng loads req =
      .ok ⟨⟨400, [], some "application/json",
            some "\x7b\"errors\": [\x7b\"message\": \"POST body sent invalid JSON.\"\x7d]\x7d"⟩,
           some (error_body "POST body sent invalid JSON."), none, .postBadJson⟩ := by
  have hpb : parse_body loads req = .error () := by
    unfold parse_body
    rw [hct]
    simp [hbody]
  unfold call
  rw [hv]
  simp [hm, hpb]
  rfl

/-- Claim C8, witness: the amended response at a concrete POST with an
unparseable JSON body. -/
theorem c8_witness :
    call {} engOk jsonParse reqPostBadBody =
      .ok ⟨⟨400, [], some "application/json",
            some "\x7b\"errors\": [\x7b\"message\": \"POST body sent invalid JSON.\"\x7d]\x7d"⟩,
           some (error_body "POST body sent invalid JSON."), none, .postBadJson⟩ :=
  c8_post_bad_json_amended {} engOk jsonParse reqPostBadBody (jObj []) rfl rfl rfl rfl
